import Mathlib

set_option linter.unusedVariables false

/-!
Formal model of the Station-Manager `email` component.

The Go sources are shallowly embedded: pure string manipulation is translated
to Lean functions on `String`/`List Char`, network and OS effects (dialing,
SMTP responses, clocks, randomness, the logging sink, the external config and
ADIF collaborators) are passed in explicitly as oracle values, and the
service struct is threaded as explicit state.  Machine integers (`int`,
`time.Duration`) are modelled as `Int` with explicit two's-complement wrapping
where an overflow could matter.
-/

namespace Email

/-- Character-class test of Go `unicode.IsSpace`, as used by
`strings.TrimSpace`: the Latin-1 fast path (space, tab, newline, vertical
tab, form feed, carriage return, NEL, NBSP) plus the White_Space code points
above Latin-1. -/
def goIsSpace (c : Char) : Bool :=
  let n := c.toNat
  n == 0x20 || n == 0x09 || n == 0x0A || n == 0x0B || n == 0x0C || n == 0x0D ||
  n == 0x85 || n == 0xA0 || n == 0x1680 ||
  (decide (0x2000 ≤ n) && decide (n ≤ 0x200A)) ||
  n == 0x2028 || n == 0x2029 || n == 0x202F || n == 0x205F || n == 0x3000

/-- Go `strings.TrimSpace`: drop leading and trailing white space. -/
def goTrimSpace (s : String) : String :=
  ⟨((s.toList.dropWhile goIsSpace).reverse.dropWhile goIsSpace).reverse⟩

/-- Go `strings.Contains(s, string(c))` for a one-character needle. -/
def containsChar (s : String) (c : Char) : Bool :=
  s.toList.any (· == c)

/-- Go `net.JoinHostPort`: brackets the host when it contains a colon. -/
def joinHostPort (host port : String) : String :=
  if containsChar host ':' then "[" ++ host ++ "]:" ++ port
  else host ++ ":" ++ port

/-- Index of the first occurrence of `c` in `l`, if any (Go's `byteIndex`
scan). -/
def firstIdx (l : List Char) (c : Char) : Option Nat :=
  match l with
  | [] => none
  | a :: rest => if a == c then some 0 else (firstIdx rest c).map (· + 1)

/-- Index of the last occurrence of `c` in `l`, if any (Go's `last` helper in
`net`, which scans from the end). -/
def lastIdx (l : List Char) (c : Char) : Option Nat :=
  match firstIdx l.reverse c with
  | none => none
  | some j => some (l.length - 1 - j)

/-- Go `net.SplitHostPort`.  `none` stands for any of its `AddrError`
returns (missing port, missing bracket, too many colons, unexpected
bracket); the Go code under verification only ever tests the error for
non-nilness, so the distinct messages need not be distinguished. -/
def splitHostPort (hostport : String) : Option (String × String) :=
  match lastIdx hostport.toList ':' with
  | none => none
  | some i =>
    if hostport.toList.head? = some '[' then
      match firstIdx hostport.toList ']' with
      | none => none
      | some e =>
        if e + 1 = hostport.toList.length then none
        else if e + 1 ≠ i then none
        else if (hostport.toList.drop 1).any (· == '[') then none
        else if (hostport.toList.drop (e + 1)).any (· == ']') then none
        else some (⟨(hostport.toList.drop 1).take (e - 1)⟩, ⟨hostport.toList.drop (i + 1)⟩)
    else
      if (hostport.toList.take i).any (· == ':') then none
      else if hostport.toList.any (· == '[') then none
      else if hostport.toList.any (· == ']') then none
      else some (⟨hostport.toList.take i⟩, ⟨hostport.toList.drop (i + 1)⟩)

/-- The fields of `types.EmailConfig` that the email component reads.
Go `int` fields are modelled as `Int`. -/
structure EmailConfig where
  Host : String := ""
  Port : Int := 0
  Username : String := ""
  Password : String := ""
  From : String := ""
  To : String := ""
  Subject : String := ""
  Body : String := ""
  SmtpRetryCount : Int := 0
  SmtpRetryDelaySec : Int := 0
  SmtpDialTimeoutSec : Int := 0
  Enabled : Bool := false
deriving Repr, DecidableEq

/-- Model of `(*Service).validateConfig` from `internal.go`.  The returned
string is the message attached via `errors.New(op).Msg(...)`; `.ok ()` is the
nil return. -/
def validateConfig (cfg : EmailConfig) : Except String Unit :=
  let host := goTrimSpace cfg.Host
  if host = "" then .error "email host cannot be empty"
  else if containsChar host ' ' then .error "email host cannot contain spaces"
  else if cfg.Port ≤ 0 ∨ 65535 < cfg.Port then
    .error "email port must be between 1 and 65535"
  else
    match splitHostPort (joinHostPort host (toString cfg.Port)) with
    | none => .error "invalid host or port for email config"
    | some _ =>
      if goTrimSpace cfg.From = "" then .error "email from address cannot be empty"
      else
        let username := goTrimSpace cfg.Username
        let password := goTrimSpace cfg.Password
        if username = "" ∧ password ≠ "" then
          .error "email username must be set when password is provided"
        else if password = "" ∧ username ≠ "" then
          .error "email password must be set when username is provided"
        else .ok ()

example : validateConfig { Host := "2001:db8::1", Port := 587, From := "from@example.com" } = .ok () := rfl

example : validateConfig { Host := "", Port := 587, From := "f@x" } = .error "email host cannot be empty" := rfl

example : validateConfig { Host := "mail", Port := 587, From := "" } = .error "email from address cannot be empty" := rfl

/-- Commands the SMTP client issues on a connection, in the order
`sendWithClient` issues them.  `hello` is the EHLO/HELO client-identity
announcement; `starttls` is the STARTTLS upgrade command; `dataCmd`
stands for DATA.  The `Extension("STARTTLS")` lookup is a local check of
the capabilities already returned by the preceding EHLO and issues no
command, so it has no constructor here. -/
inductive SmtpCmd where
  | hello
  | starttls
  | auth
  | mail
  | rcpt (addr : String)
  | dataCmd
  | quit
deriving Repr, DecidableEq

/-- Oracle for the remote SMTP server's behaviour over one connection:
each field gives the success/failure of the server's response to the
corresponding client step of `sendWithClient`.  `advertisesStartTLS` is
whether the EHLO capability list contains STARTTLS. -/
structure SmtpServer where
  greetingOk : Bool := true
  helloOk : Bool := true
  advertisesStartTLS : Bool := true
  starttlsOk : Bool := true
  helloAfterTLSOk : Bool := true
  authOk : Bool := true
  mailOk : Bool := true
  rcptOk : String → Bool := fun _ => true
  dataOk : Bool := true
  writeOk : Bool := true
  closeOk : Bool := true
  quitOk : Bool := true

/-- Failure points of `sendWithClient`, in source order. -/
inductive SmtpErr where
  | greeting
  | hello
  | tlsRequired
  | starttls
  | helloAfterTLS
  | auth
  | mail
  | rcpt (addr : String)
  | dataCmd
  | write
  | closeData
deriving Repr, DecidableEq

/-- Issue RCPT commands for each recipient in order, stopping at the first
rejection (the `for _, addr := range to` loop of `sendWithClient`). -/
def rcptLoop (srv : SmtpServer) : List String → Except SmtpErr Unit × List SmtpCmd
  | [] => (.ok (), [])
  | a :: rest =>
    if srv.rcptOk a then
      let (r, tr) := rcptLoop srv rest
      (r, .rcpt a :: tr)
    else (.error (.rcpt a), [.rcpt a])

/-- Model of `sendWithClient` from `internal.go`.  Returns the Go error
result together with the trace of SMTP commands issued on the connection.
The `errors.New(op).Err(...)` wrappers carry no control flow and are
represented by the bare `SmtpErr` labels.  Note the final step: a `QUIT`
failure after the data section was accepted is swallowed and the function
still returns nil. -/
def sendWithClient (srv : SmtpServer) (auth : Bool) (fromAddr : String)
    (rcpts : List String) (msg : String) (alreadyTLS : Bool) :
    Except SmtpErr Unit × List SmtpCmd :=
  if ¬ srv.greetingOk then (.error .greeting, [])
  else if ¬ srv.helloOk then (.error .hello, [.hello])
  else
    let pre : List SmtpCmd := [.hello]
    if ¬ alreadyTLS ∧ ¬ srv.advertisesStartTLS then (.error .tlsRequired, pre)
    else
      let afterTLS : Option (List SmtpCmd) :=
        if alreadyTLS then some pre
        else if ¬ srv.starttlsOk then none
        else if ¬ srv.helloAfterTLSOk then none
        else some (pre ++ [.starttls, .hello])
      match afterTLS with
      | none =>
        if ¬ srv.starttlsOk then (.error .starttls, pre ++ [.starttls])
        else (.error .helloAfterTLS, pre ++ [.starttls, .hello])
      | some tr0 =>
        if auth ∧ ¬ srv.authOk then (.error .auth, tr0 ++ [.auth])
        else
          let tr1 := tr0 ++ if auth then [SmtpCmd.auth] else []
          if ¬ srv.mailOk then (.error .mail, tr1 ++ [.mail])
          else
            let tr2 := tr1 ++ [SmtpCmd.mail]
            match rcptLoop srv rcpts with
            | (.error e, tr) => (.error e, tr2 ++ tr)
            | (.ok _, tr) =>
              let tr3 := tr2 ++ tr
              if ¬ srv.dataOk then (.error .dataCmd, tr3 ++ [.dataCmd])
              else if ¬ srv.writeOk then (.error .write, tr3 ++ [.dataCmd])
              else if ¬ srv.closeOk then (.error .closeData, tr3 ++ [.dataCmd])
              else ((.ok (), tr3 ++ [.dataCmd, .quit]))

/-- Which kind of connection a dial opens: the implicit-TLS dial of
`tryImplicitTLS` or the plain TCP dial of `tryStartTLS`. -/
inductive ConnKind where
  | tlsDial
  | plainDial
deriving Repr, DecidableEq

/-- One connection attempt made by the transport negotiator: which dial was
tried, whether the dial itself succeeded, and the SMTP commands issued over
the resulting connection (empty when the dial failed). -/
structure ConnAttempt where
  kind : ConnKind
  dialOk : Bool
  cmds : List SmtpCmd
deriving Repr, DecidableEq

/-- Errors of the transport negotiation level. -/
inductive SendMailErr where
  | badAddr
  | dialFailed (kind : ConnKind)
  | session (e : SmtpErr)
deriving Repr, DecidableEq

/-- Network oracle for one delivery attempt: the outcome of the implicit
TLS dial and of the plain TCP dial, and the server behaviour observed over
each of the two possible connections. -/
structure NetEnv where
  tlsDialOk : Bool := true
  tlsServer : SmtpServer := {}
  plainDialOk : Bool := true
  plainServer : SmtpServer := {}

/-- Model of `tryImplicitTLS`: TLS-dial, then run the session with
`alreadyTLS = true`.  The returned error covers both dial failures and
session failures, exactly as in the Go function. -/
def tryImplicitTLS (env : NetEnv) (auth : Bool) (fromAddr : String)
    (rcpts : List String) (msg : String) : Except SendMailErr Unit × List ConnAttempt :=
  if env.tlsDialOk then
    let (r, tr) := sendWithClient env.tlsServer auth fromAddr rcpts msg true
    (r.mapError .session, [⟨.tlsDial, true, tr⟩])
  else (.error (.dialFailed .tlsDial), [⟨.tlsDial, false, []⟩])

/-- Model of `tryStartTLS`: plain dial, then run the session with
`alreadyTLS = false`. -/
def tryStartTLS (env : NetEnv) (auth : Bool) (fromAddr : String)
    (rcpts : List String) (msg : String) : Except SendMailErr Unit × List ConnAttempt :=
  if env.plainDialOk then
    let (r, tr) := sendWithClient env.plainServer auth fromAddr rcpts msg false
    (r.mapError .session, [⟨.plainDial, true, tr⟩])
  else (.error (.dialFailed .plainDial), [⟨.plainDial, false, []⟩])

/-- Model of `sendMailWithTLS`: split the address, try the implicit-TLS
path, and if it returned any error fall back to the STARTTLS path.  The
second component collects every connection attempt in order. -/
def sendMailWithTLS (addr : String) (env : NetEnv) (auth : Bool)
    (fromAddr : String) (rcpts : List String) (msg : String) :
    Except SendMailErr Unit × List ConnAttempt :=
  match splitHostPort addr with
  | none => (.error .badAddr, [])
  | some _ =>
    match tryImplicitTLS env auth fromAddr rcpts msg with
    | (.ok _, as1) => (.ok (), as1)
    | (.error _, as1) =>
      let (r2, as2) := tryStartTLS env auth fromAddr rcpts msg
      (r2, as1 ++ as2)

example :
    sendMailWithTLS "smtp.example.com:587" {} true "f@x" ["t@y"] "m" =
      (.ok (), [⟨.tlsDial, true, [.hello, .auth, .mail, .rcpt "t@y", .dataCmd, .quit]⟩]) := rfl

example :
    (sendMailWithTLS "smtp.example.com:587"
      { tlsServer := { mailOk := false } } false "f@x" ["t@y"] "m").2.map ConnAttempt.kind =
      [.tlsDial, .plainDial] := rfl

/-- Two's-complement wrap of an `Int` into the `int64` range, for the
`time.Duration` arithmetic (`Duration` is an `int64` of nanoseconds). -/
def wrap64 (x : Int) : Int :=
  (x + 2 ^ 63) % 2 ^ 64 - 2 ^ 63

/-- The retry delay computed by `Send`:
`delay := time.Duration(sec) * time.Second; if delay <= 0 { delay = 0 }`,
in nanoseconds. -/
def goDelayNs (sec : Int) : Int :=
  let d := wrap64 (sec * 1000000000)
  if d ≤ 0 then 0 else d

/-- The dial timeout derived during `Initialize`, in nanoseconds: for a
positive configured value, `sec` seconds clamped to `[1s, 60s]`; otherwise
the 10-second default. -/
def deriveDialTimeout (sec : Int) : Int :=
  if 0 < sec then
    let d := wrap64 (sec * 1000000000)
    let d := if d < 1000000000 then 1000000000 else d
    if 60000000000 < d then 60000000000 else d
  else 10000000000

/-- State of one `email.Service` value together with the package globals it
touches.  `loggerPresent`/`configServicePresent` model the nilness of the
injected `LoggerService`/`ConfigService` pointers, `config` the `Config`
pointer, `isInitialized` the atomic flag, `onceDone` whether `initOnce.Do`
has consumed its one-shot, and `dialTimeoutNs` the package-level
`smtpDialTimeout` variable. -/
structure ServiceState where
  loggerPresent : Bool := true
  configServicePresent : Bool := true
  config : Option EmailConfig := none
  isInitialized : Bool := false
  onceDone : Bool := false
  dialTimeoutNs : Int := 10000000000
deriving Repr, DecidableEq

/-- The message value handed to `Send` (`MsgDef` in the source). -/
structure MsgDef where
  From : String := ""
  To : List String := []
  Msg : String := ""
deriving Repr, DecidableEq

/-- Events emitted to the logging collaborator by `Send`.  The sink is
external and fire-and-forget, so it is modelled as a pure event list. -/
inductive LogEvent where
  | warnDisabled
  | errorAttempt (attempt : Nat)
  | infoSent
deriving Repr, DecidableEq

/-- Errors returned by `Send`.  `sendFailed e` is the final transport error
`e` wrapped with the summary message "failed to send email";
`notInitialized` is the `errMsgNotInitialized` precondition error. -/
inductive SendError where
  | notInitialized
  | fromEmpty
  | sendFailed (last : String)
deriving Repr, DecidableEq

/-- Equality of `Except` results is decidable whenever both components are. -/
instance {e a : Type} [DecidableEq e] [DecidableEq a] : DecidableEq (Except e a) := fun x y =>
  match x, y with
  | .ok u, .ok v =>
    if h : u = v then isTrue (by rw [h]) else isFalse (fun hc => h (Except.ok.inj hc))
  | .error u, .error v =>
    if h : u = v then isTrue (by rw [h]) else isFalse (fun hc => h (Except.error.inj hc))
  | .ok _, .error _ => isFalse (fun hc => Except.noConfusion hc)
  | .error _, .ok _ => isFalse (fun hc => Except.noConfusion hc)

/-- Output of one `Send` call: the returned error value, the number of
transport invocations, the delays actually slept (nanoseconds, in order),
the log events emitted, and the service state after the call. -/
structure SendResult where
  result : Except SendError Unit
  attempts : Nat
  sleeps : List Int
  logs : List LogEvent
  finalService : ServiceState
deriving Repr, DecidableEq

/-- The retry loop of `Send`.  `transport i` is the outcome of the `i`-th
invocation of `sendMailFn` (`none` = success, `some e` = the error's
message); `attempt` is the Go loop counter, `remaining` the number of loop
iterations still allowed (`retries + 1 - attempt`).  Returns the final
`lastErr`, the number of transport invocations, the sleeps performed, and
the log events, matching the Go loop body statement for statement. -/
def retryLoop (transport : Nat → Option String) (delay : Int) :
    Nat → Nat → Option String × Nat × List Int × List LogEvent
  | _, 0 => (none, 0, [], [])
  | attempt, r + 1 =>
    let sl : List Int := if 0 < attempt ∧ 0 < delay then [delay] else []
    match transport attempt with
    | none => (none, 1, sl, [.infoSent])
    | some e =>
      match r with
      | 0 => (some e, 1, sl, [.errorAttempt (attempt + 1)])
      | r' + 1 =>
        let (le, n, sls, lgs) := retryLoop transport delay (attempt + 1) (r' + 1)
        (le, n + 1, sl ++ sls, .errorAttempt (attempt + 1) :: lgs)

/-- Model of `(*Service).Send`.  `transport` abstracts the package variable
`sendMailFn` (production value `sendMailWithTLS`, substituted in tests): it
gives the outcome of each successive invocation; the address, auth, envelope
sender, recipients and payload that Go passes to it do not influence the
control flow modelled here.  The outer `Option` is `none` exactly when the
Go code would dereference a nil `Config` pointer (initialized flag set but
no config). -/
def send (s : ServiceState) (email : MsgDef) (transport : Nat → Option String) :
    Option SendResult :=
  if ¬ s.isInitialized then
    some { result := .error .notInitialized, attempts := 0, sleeps := [], logs := [],
           finalService := s }
  else
    match s.config with
    | none => none
    | some cfg =>
      if ¬ cfg.Enabled then
        some { result := .ok (), attempts := 0, sleeps := [], logs := [.warnDisabled],
               finalService := s }
      else
        let fromA := goTrimSpace email.From
        let fromA := if fromA = "" then goTrimSpace cfg.From else fromA
        if fromA = "" then
          some { result := .error .fromEmpty, attempts := 0, sleeps := [], logs := [],
                 finalService := s }
        else
          let retries := cfg.SmtpRetryCount.toNat
          let delay := goDelayNs cfg.SmtpRetryDelaySec
          let (lastErr, n, sls, lgs) := retryLoop transport delay 0 (retries + 1)
          some { result := match lastErr with
                           | some e => .error (.sendFailed e)
                           | none => .ok ()
               , attempts := n, sleeps := sls, logs := lgs, finalService := s }

example :
    send { isInitialized := true,
           config := some { Host := "smtp.example.com", Port := 587, From := "cfg@example.com",
                            Enabled := true, SmtpRetryCount := 2 } }
      { To := ["t@y"], Msg := "hi" }
      (fun i => if i < 2 then some "temporary" else none) =
      some { result := .ok (), attempts := 3, sleeps := [],
             logs := [.errorAttempt 1, .errorAttempt 2, .infoSent],
             finalService := { isInitialized := true,
                               config := some { Host := "smtp.example.com", Port := 587,
                                                From := "cfg@example.com", Enabled := true,
                                                SmtpRetryCount := 2 } } } := rfl

/-- Errors returned by `Initialize`. -/
inductive InitError where
  | noLogger
  | noConfigService
  | fetchFailed (e : String)
  | invalidConfig (msg : String)
deriving Repr, DecidableEq

/-- Model of `(*Service).Initialize`.  `fetch` is the outcome of the
external `ConfigService.EmailConfig()` call.  The `initOnce.Do` one-shot is
the `onceDone` flag; note that `initErr` is a fresh local on every call, so
when the one-shot has already been consumed the function returns nil
regardless of what the first execution produced. -/
def initializeService (fetch : Except String EmailConfig) (s : ServiceState) :
    Except InitError Unit × ServiceState :=
  if s.isInitialized then (.ok (), s)
  else if s.onceDone then (.ok (), s)
  else
    let s1 := { s with onceDone := true }
    if ¬ s1.loggerPresent then (.error .noLogger, s1)
    else if ¬ s1.configServicePresent then (.error .noConfigService, s1)
    else
      match fetch with
      | .error e => (.error (.fetchFailed e), s1)
      | .ok cfg =>
        match validateConfig cfg with
        | .error ve =>
          (.error (.invalidConfig ve), { s1 with config := some { cfg with Enabled := false } })
        | .ok _ =>
          (.ok (),
            { s1 with
              config := some cfg
              isInitialized := true
              dialTimeoutNs := deriveDialTimeout cfg.SmtpDialTimeoutSec })

example :
    (initializeService (.ok {}) { loggerPresent := false }).1 = .error .noLogger := rfl

example :
    (initializeService (.ok {}) { loggerPresent := false, onceDone := true }).1 = .ok () := rfl

/-- Is a byte allowed in a MIME header field name (the token table of Go
`net/textproto`): letters, digits, and the specials of RFC 7230 tokens. -/
def validHeaderFieldByte (c : Char) : Bool :=
  let n := c.toNat
  (decide (0x30 ≤ n) && decide (n ≤ 0x39)) ||
  (decide (0x41 ≤ n) && decide (n ≤ 0x5A)) ||
  (decide (0x61 ≤ n) && decide (n ≤ 0x7A)) ||
  n == 0x21 || n == 0x23 || n == 0x24 || n == 0x25 || n == 0x26 || n == 0x27 ||
  n == 0x2A || n == 0x2B || n == 0x2D || n == 0x2E || n == 0x5E || n == 0x5F ||
  n == 0x60 || n == 0x7C || n == 0x7E

/-- Case-fold the characters of a header key: uppercase the first letter
and every letter after a hyphen, lowercase the rest. -/
def canonicalChars : List Char → Bool → List Char
  | [], _ => []
  | c :: cs, upper =>
    (if upper then c.toUpper else c.toLower) :: canonicalChars cs (c == '-')

/-- Go `textproto.CanonicalMIMEHeaderKey`: returns the key unchanged when it
contains an invalid byte, otherwise canonicalises its case.  In particular
`"Message-ID"` becomes `"Message-Id"` and `"MIME-Version"` becomes
`"Mime-Version"`. -/
def canonicalMIMEKey (s : String) : String :=
  if s.toList.any (fun c => !(validHeaderFieldByte c)) then s
  else ⟨canonicalChars s.toList true⟩

example : canonicalMIMEKey "Message-ID" = "Message-Id" := rfl

example : canonicalMIMEKey "MIME-Version" = "Mime-Version" := rfl

/-- Go `textproto.MIMEHeader.Set` on the header mapping.  The mapping is
kept as an association list ordered by first insertion so that the claimed
"insertion order" is expressible; the Go value is a hash map carrying no
such order.  Every `Set` in the composer stores a one-element value list,
so the value is kept as a plain `String`. -/
def hdrSet (h : List (String × String)) (k v : String) : List (String × String) :=
  let ck := canonicalMIMEKey k
  if h.any (fun p => p.1 == ck) then h.map (fun p => if p.1 == ck then (ck, v) else p)
  else h ++ [(ck, v)]

/-- The seven `hdr.Set` calls of `BuildEmailWithADIFAttachment`, in source
order, producing the composed header mapping. -/
def buildHeaders (fromAddr toJoined subject date mid boundary : String) :
    List (String × String) :=
  let h := hdrSet [] "From" fromAddr
  let h := hdrSet h "To" toJoined
  let h := hdrSet h "Subject" subject
  let h := hdrSet h "Date" date
  let h := hdrSet h "Message-ID" mid
  let h := hdrSet h "MIME-Version" "1.0"
  hdrSet h "Content-Type" ("multipart/mixed; boundary=\"" ++ boundary ++ "\"")

/-- One serialized header line `k: v\r\n` for key `k`, or nothing when the
mapping has no such key. -/
def headerLine (hdr : List (String × String)) (k : String) : String :=
  match hdr.find? (fun p => p.1 == k) with
  | some p => p.1 ++ ": " ++ p.2 ++ "\r\n"
  | none => ""

/-- The header-serialization loop `for k, v := range hdr` of the composer.
A Go map range visits every key exactly once in an unspecified, run-to-run
randomized order, so the iteration order is an explicit parameter: any
permutation of the mapping's keys is a possible execution. -/
def writeHeaderLines (hdr : List (String × String)) (order : List String) : String :=
  String.join (order.map (headerLine hdr))

/-- The base64 hard-wrapping loop of the composer, written with an explicit
fuel argument so that it is structurally recursive and kernel-reducible.
Each iteration of the Go loop consumes at least one character, so any fuel
of at least the list length reaches the empty-list base case and the zero
fuel case is never taken. -/
def chunkBase64Fuel : Nat → List Char → List Char
  | _, [] => []
  | 0, _ => []
  | f + 1, l => l.take 76 ++ '\r' :: '\n' :: chunkBase64Fuel f (l.drop 76)

/-- The 76-column chunking loop of the composer: emit 76-character chunks of
the base64 text, each terminated by CRLF. -/
def chunk76 (s : String) : String :=
  ⟨chunkBase64Fuel s.toList.length s.toList⟩

/-- The multipart/mixed body the composer writes through
`mime/multipart.Writer`: part boundaries and part headers exactly as
`CreatePart` emits them (part header keys in sorted order), the
quoted-printable text part, the base64 attachment part, and the closing
boundary of `Close`. -/
def multipartBody (boundary filename qpBody b64 : String) : String :=
  "--" ++ boundary ++ "\r\n" ++
  "Content-Transfer-Encoding: quoted-printable\r\n" ++
  "Content-Type: text/plain; charset=utf-8\r\n" ++
  "\r\n" ++
  qpBody ++
  "\r\n--" ++ boundary ++ "\r\n" ++
  "Content-Disposition: attachment; filename=\"" ++ filename ++ "\"\r\n" ++
  "Content-Transfer-Encoding: base64\r\n" ++
  "Content-Type: application/octet-stream; name=\"" ++ filename ++ "\"\r\n" ++
  "\r\n" ++
  chunk76 b64 ++
  "\r\n--" ++ boundary ++ "--\r\n"

/-- Split a character list at every character satisfying `p`, keeping the
(possibly empty) pieces between separators. -/
def splitCharsAux (p : Char → Bool) : List Char → List Char → List String
  | [], acc => [⟨acc.reverse⟩]
  | c :: cs, acc =>
    if p c then ⟨acc.reverse⟩ :: splitCharsAux p cs []
    else splitCharsAux p cs (c :: acc)

/-- Split a string at every character satisfying `p`. -/
def splitChars (s : String) (p : Char → Bool) : List String :=
  splitCharsAux p s.toList []

/-- Modelled from the spec: the repository's `splitAndTrim` helper is not
among the provided source files (only its test and its caller are).  Per
the spec, the configured recipient string is split on comma, semicolon and
whitespace, the pieces are trimmed, and empties are discarded. -/
def splitAndTrim (s : String) : List String :=
  (((splitChars s fun c => c == ',' || c == ';' || goIsSpace c).map goTrimSpace).filter
    (· != ""))

example : splitAndTrim "a@x.com; b@y.com c@z.com, d@w.com" =
    ["a@x.com", "b@y.com", "c@z.com", "d@w.com"] := by decide

/-- The two `types.Qso` fields the email tests populate; the composer treats
the records as opaque input for the external ADIF compositor. -/
structure Qso where
  LogbookID : Int := 0
  SessionID : Int := 0
deriving Repr, DecidableEq

/-- Environment of one composer call: the external ADIF compositor's
outcome for the given records, the opaque standard-library encoders
(quoted-printable and base64), the clock-derived strings, the random
boundary, the generated Message-ID (`generateMessageID` is not among the
provided sources; per the spec it yields a fresh `<random@localIdentity>`
token), and the Go map iteration order used when serializing headers. -/
structure BuildEnv where
  adifResult : Except String String := .ok ""
  qpEncode : String → String := id
  b64Encode : String → String := id
  timestamp : String := ""
  date : String := ""
  mid : String := ""
  boundary : String := ""
  hdrOrder : List String :=
    ["From", "To", "Subject", "Date", "Message-Id", "Mime-Version", "Content-Type"]

/-- Error returns of `BuildEmailWithADIFAttachment`.  The buffer-backed
multipart and encoder writes cannot fail, so the only error sources are the
empty recipient set, the empty record slice, and the external compositor. -/
inductive BuildError where
  | toEmpty
  | qsoEmpty
  | adifFailed (e : String)
deriving Repr, DecidableEq

/-- Model of `(*Service).BuildEmailWithADIFAttachment`.  Note that the
resolved `from` falls back to `cfg.From` untrimmed, and that no emptiness
check is performed on it before the document is composed. -/
def buildEmailWithADIFAttachment (cfg : EmailConfig) (env : BuildEnv)
    (fromAddr subject msg : String) (recipients : List String) (slice : List Qso) :
    Except BuildError MsgDef :=
  let fromR := goTrimSpace fromAddr
  let fromR := if fromR = "" then cfg.From else fromR
  let tos := if recipients.isEmpty then splitAndTrim cfg.To else recipients
  if tos.isEmpty then .error .toEmpty
  else
    let subjectR := if goTrimSpace subject = "" then cfg.Subject else goTrimSpace subject
    let msgR := if goTrimSpace msg = "" then cfg.Body else goTrimSpace msg
    if slice.isEmpty then .error .qsoEmpty
    else
      match env.adifResult with
      | .error e => .error (.adifFailed e)
      | .ok adifContent =>
        let filename := env.timestamp ++ "-export.adi"
        let adifB64 := env.b64Encode adifContent
        let hdr := buildHeaders fromR (String.intercalate ", " tos) subjectR
          env.date env.mid env.boundary
        let body := multipartBody env.boundary filename (env.qpEncode msgR) adifB64
        .ok { From := fromR, To := tos
            , Msg := writeHeaderLines hdr env.hdrOrder ++ "\r\n" ++ body }

example :
    (buildEmailWithADIFAttachment { From := "" } {} "" "" "hello" ["t@y"]
      [{ LogbookID := 1, SessionID := 1 }]).isOk = true := rfl

/-! ## Helper lemmas -/

/-- When every recipient is accepted, the RCPT loop succeeds and issues one
RCPT command per recipient, in order. -/
theorem rcptLoop_ok (srv : SmtpServer) (rcpts : List String)
    (h : ∀ a ∈ rcpts, srv.rcptOk a = true) :
    rcptLoop srv rcpts = (.ok (), rcpts.map .rcpt) := by
  induction rcpts with
  | nil => rfl
  | cons a rest ih =>
    have ha : srv.rcptOk a = true := h a (List.mem_cons_self a rest)
    have hrest : ∀ b ∈ rest, srv.rcptOk b = true := fun b hb => h b (List.mem_cons_of_mem a hb)
    simp [rcptLoop, ha, ih hrest]

/-- The implicit-TLS attempt records exactly one connection attempt, of the
TLS kind. -/
theorem tryImplicitTLS_kinds (env : NetEnv) (auth : Bool) (fromAddr : String)
    (rcpts : List String) (msg : String) :
    (tryImplicitTLS env auth fromAddr rcpts msg).2.map ConnAttempt.kind = [.tlsDial] := by
  unfold tryImplicitTLS
  split <;> simp

/-- The STARTTLS fallback attempt records exactly one connection attempt, of
the plain kind. -/
theorem tryStartTLS_kinds (env : NetEnv) (auth : Bool) (fromAddr : String)
    (rcpts : List String) (msg : String) :
    (tryStartTLS env auth fromAddr rcpts msg).2.map ConnAttempt.kind = [.plainDial] := by
  unfold tryStartTLS
  split <;> simp

/-! ## C1 -/

/-- C1 (confirmed): on a connection that is not already TLS-secured, when
the server's EHLO capabilities do not include STARTTLS, `sendWithClient`
fails with the TLS-required error right after the client-identity
announcement, and no AUTH, MAIL, RCPT or DATA command is ever issued over
the plaintext connection. -/
theorem C1_tls_required_no_plaintext_commands (srv : SmtpServer) (auth : Bool)
    (fromAddr : String) (rcpts : List String) (msg : String)
    (hExt : srv.advertisesStartTLS = false) :
    (srv.greetingOk = true → srv.helloOk = true →
      sendWithClient srv auth fromAddr rcpts msg false = (.error .tlsRequired, [.hello])) ∧
    ∀ c ∈ (sendWithClient srv auth fromAddr rcpts msg false).2,
      c ≠ SmtpCmd.auth ∧ c ≠ SmtpCmd.mail ∧ c ≠ SmtpCmd.dataCmd ∧ ∀ a, c ≠ SmtpCmd.rcpt a := by
  constructor
  · intro hg hh
    simp [sendWithClient, hg, hh, hExt]
  · by_cases hg : srv.greetingOk
    · by_cases hh : srv.helloOk
      · simp [sendWithClient, hg, hh, hExt]
      · simp [sendWithClient, hg, hh]
    · simp [sendWithClient, hg]

/-- Witness for C1 at a concrete plaintext server without STARTTLS. -/
theorem C1_witness :
    sendWithClient { advertisesStartTLS := false } true "f@x" ["t@y"] "m" false =
      (.error .tlsRequired, [.hello]) :=
  (C1_tls_required_no_plaintext_commands { advertisesStartTLS := false } true "f@x" ["t@y"]
    "m" rfl).1 rfl rfl

/-! ## C5 -/

/-- C5 (confirmed): when the session reaches a successful close of the data
section (the message has been accepted), a failing QUIT is swallowed and
`sendWithClient` still returns nil. -/
theorem C5_quit_failure_swallowed (srv : SmtpServer) (auth : Bool) (fromAddr : String)
    (rcpts : List String) (msg : String) (alreadyTLS : Bool)
    (hg : srv.greetingOk = true) (hh : srv.helloOk = true)
    (htls : alreadyTLS = true ∨
      (srv.advertisesStartTLS = true ∧ srv.starttlsOk = true ∧ srv.helloAfterTLSOk = true))
    (ha : auth = true → srv.authOk = true) (hm : srv.mailOk = true)
    (hr : ∀ a ∈ rcpts, srv.rcptOk a = true)
    (hd : srv.dataOk = true) (hw : srv.writeOk = true) (hcl : srv.closeOk = true)
    (hq : srv.quitOk = false) :
    (sendWithClient srv auth fromAddr rcpts msg alreadyTLS).1 = .ok () := by
  have hloop := rcptLoop_ok srv rcpts hr
  rcases htls with hTLS | ⟨hadv, hst, hh2⟩
  · subst hTLS
    by_cases hau : auth
    · simp [sendWithClient, hg, hh, ha hau, hm, hd, hw, hcl, hloop, hau]
    · simp [sendWithClient, hg, hh, hm, hd, hw, hcl, hloop, hau]
  · by_cases hau : auth
    · cases alreadyTLS <;>
        simp [sendWithClient, hg, hh, hadv, hst, hh2, ha hau, hm, hd, hw, hcl, hloop, hau]
    · cases alreadyTLS <;>
        simp [sendWithClient, hg, hh, hadv, hst, hh2, hm, hd, hw, hcl, hloop, hau]

/-- Witness for C5: a server that accepts everything but fails QUIT, over an
already-secured connection; the attempt still reports success. -/
theorem C5_witness :
    (sendWithClient { quitOk := false } true "f@x" ["t@y"] "m" true).1 = .ok () :=
  C5_quit_failure_swallowed { quitOk := false } true "f@x" ["t@y"] "m" true rfl rfl
    (Or.inl rfl) (fun _ => rfl) rfl (by intro a ha; rfl) rfl rfl rfl rfl

/-! ## C2 -/

/-- C2 (counterexample): with an environment in which the implicit TLS dial
succeeds and only the protocol session over it fails (MAIL is rejected),
`sendMailWithTLS` nevertheless opens a second, plain connection — the
session failure over a successfully established TLS connection is not
terminal for the attempt. -/
theorem C2_counterexample :
    (NetEnv.tlsDialOk { tlsServer := { mailOk := false } }) = true ∧
    (tryImplicitTLS { tlsServer := { mailOk := false } } false "f@x" ["t@y"] "m").1 =
      .error (.session .mail) ∧
    (sendMailWithTLS "smtp.example.com:587" { tlsServer := { mailOk := false } }
        false "f@x" ["t@y"] "m").2.map ConnAttempt.kind = [.tlsDial, .plainDial] :=
  ⟨rfl, rfl, rfl⟩

/-- C2 (amended): the fallback plain connection is opened exactly when the
implicit-TLS attempt returns an error for any reason — a dial failure or a
protocol-session failure over the established TLS connection alike; only
when the whole implicit attempt succeeds is no second connection opened. -/
theorem C2_amended_fallback_on_any_implicit_error (addr : String) (env : NetEnv)
    (auth : Bool) (fromAddr : String) (rcpts : List String) (msg : String)
    (h : (splitHostPort addr).isSome) :
    ((sendMailWithTLS addr env auth fromAddr rcpts msg).2.map ConnAttempt.kind =
      if (tryImplicitTLS env auth fromAddr rcpts msg).1.isOk then [.tlsDial]
      else [.tlsDial, .plainDial]) ∧
    ((tryImplicitTLS env auth fromAddr rcpts msg).1.isOk = true →
      (sendMailWithTLS addr env auth fromAddr rcpts msg).1 = .ok ()) := by
  obtain ⟨pr, hpr⟩ := Option.isSome_iff_exists.mp h
  have hkimp := tryImplicitTLS_kinds env auth fromAddr rcpts msg
  have hkst := tryStartTLS_kinds env auth fromAddr rcpts msg
  rcases hImp : tryImplicitTLS env auth fromAddr rcpts msg with ⟨r1, as1⟩
  rcases hSt : tryStartTLS env auth fromAddr rcpts msg with ⟨r2, as2⟩
  rw [hImp] at hkimp
  rw [hSt] at hkst
  cases r1 with
  | ok u =>
    cases u
    constructor
    · simp [sendMailWithTLS, hpr, hImp, hkimp, Except.isOk, Except.toBool]
    · intro _
      simp [sendMailWithTLS, hpr, hImp]
  | error e =>
    constructor
    · simp only [sendMailWithTLS, hpr, hImp, hSt, Except.isOk, Except.toBool]
      simp [List.map_append, hkimp, hkst]
    · intro hcon
      simp [Except.isOk, Except.toBool] at hcon

/-- Witness for the amended C2 theorem at a concrete address and
environment. -/
theorem C2_amended_witness :
    (sendMailWithTLS "smtp.example.com:587" {} true "f@x" ["t@y"] "m").2.map ConnAttempt.kind =
      [.tlsDial] := by
  have h := (C2_amended_fallback_on_any_implicit_error "smtp.example.com:587" {} true "f@x"
    ["t@y"] "m" (by decide)).1
  rw [h]
  rfl

/-! ## Retry-loop lemmas -/

/-- With an always-failing transport and a positive starting attempt index,
the retry loop performs every remaining attempt, sleeps before each one
exactly when the delay is positive, and ends holding the last attempt's
error. -/
theorem retryLoop_all_fail_pos (t : Nat → Option String) (d : Int) (errAt : Nat → String)
    (h : ∀ i, t i = some (errAt i)) :
    ∀ r a, 0 < a →
      (retryLoop t d a (r + 1)).1 = some (errAt (a + r)) ∧
      (retryLoop t d a (r + 1)).2.1 = r + 1 ∧
      (retryLoop t d a (r + 1)).2.2.1 = (if 0 < d then List.replicate (r + 1) d else []) := by
  intro r
  induction r with
  | zero =>
    intro a ha
    by_cases hd : 0 < d <;> simp [retryLoop, h a, ha, hd]
  | succ r ih =>
    intro a ha
    have hrec := ih (a + 1) (Nat.succ_pos a)
    have hidx : a + 1 + r = a + (r + 1) := by omega
    rw [hidx] at hrec
    rcases hrl : retryLoop t d (a + 1) (r + 1) with ⟨le, n, sls, lgs⟩
    rw [hrl] at hrec
    have hle : le = some (errAt (a + (r + 1))) := hrec.1
    have hn : n = r + 1 := hrec.2.1
    have hsls : sls = (if 0 < d then List.replicate (r + 1) d else []) := hrec.2.2
    subst hle hn hsls
    by_cases hd : 0 < d <;>
      simp [retryLoop, h a, ha, hd, hrl, List.replicate_succ]

/-- The retry loop as `Send` enters it (attempt counter 0) with an
always-failing transport: exactly `N + 1` transport calls, `N` sleeps when
the delay is positive (none otherwise), and the final attempt's error as
`lastErr`. -/
theorem retryLoop_all_fail_zero (t : Nat → Option String) (d : Int) (errAt : Nat → String)
    (h : ∀ i, t i = some (errAt i)) (N : Nat) :
    (retryLoop t d 0 (N + 1)).1 = some (errAt N) ∧
    (retryLoop t d 0 (N + 1)).2.1 = N + 1 ∧
    (retryLoop t d 0 (N + 1)).2.2.1 = (if 0 < d then List.replicate N d else []) := by
  cases N with
  | zero => by_cases hd : 0 < d <;> simp [retryLoop, h 0, hd]
  | succ r =>
    have hrec := retryLoop_all_fail_pos t d errAt h r 1 Nat.one_pos
    have hidx : 1 + r = r + 1 := by omega
    rw [hidx] at hrec
    rcases hrl : retryLoop t d 1 (r + 1) with ⟨le, n, sls, lgs⟩
    rw [hrl] at hrec
    have hle : le = some (errAt (r + 1)) := hrec.1
    have hn : n = r + 1 := hrec.2.1
    have hsls : sls = (if 0 < d then List.replicate (r + 1) d else []) := hrec.2.2
    subst hle hn hsls
    by_cases hd : 0 < d <;> simp [retryLoop, h 0, hd, hrl]

/-- When the transport first succeeds at attempt `k` (within the allowed
bound), the retry loop stops right there: `k + 1` transport calls and a nil
`lastErr`. -/
theorem retryLoop_first_success (t : Nat → Option String) (d : Int) :
    ∀ k a r, (∀ i, i < k → (t (a + i)).isSome = true) → t (a + k) = none → k ≤ r →
      (retryLoop t d a (r + 1)).1 = none ∧ (retryLoop t d a (r + 1)).2.1 = k + 1 := by
  intro k
  induction k with
  | zero =>
    intro a r _ hk _
    rw [Nat.add_zero] at hk
    simp [retryLoop, hk]
  | succ k ih =>
    intro a r hlt hk hkr
    obtain ⟨e, he⟩ := Option.isSome_iff_exists.mp (hlt 0 (Nat.succ_pos k))
    rw [Nat.add_zero] at he
    cases r with
    | zero => omega
    | succ r =>
      have hlt' : ∀ i, i < k → (t (a + 1 + i)).isSome = true := by
        intro i hi
        have hx := hlt (i + 1) (Nat.succ_lt_succ hi)
        have hidx : a + (i + 1) = a + 1 + i := by omega
        rwa [hidx] at hx
      have hk' : t (a + 1 + k) = none := by
        have hidx : a + (k + 1) = a + 1 + k := by omega
        rwa [hidx] at hk
      have hrec := ih (a + 1) r hlt' hk' (by omega)
      rcases hrl : retryLoop t d (a + 1) (r + 1) with ⟨le, n, sls, lgs⟩
      rw [hrl] at hrec
      have hle : le = none := hrec.1
      have hn : n = k + 1 := hrec.2
      subst hle hn
      simp [retryLoop, he, hrl]

/-! ## C4 -/

/-- C4 (confirmed): for an initialized, enabled service with a resolvable
sender, `Send` runs the retry loop with `N + 1` attempts where `N` is the
retry count floored at zero.  Against an always-failing transport it calls
the transport exactly `N + 1` times, sleeps the floored delay before every
attempt after the first (no sleep calls at all when the floored delay is
zero), discards every intermediate error, returns the final attempt's error
wrapped as a send failure, and leaves the service state unchanged; and
whenever some attempt succeeds first, the loop stops immediately with a nil
result after exactly that many calls. -/
theorem C4_retry_loop_behaviour (s : ServiceState) (cfg : EmailConfig) (email : MsgDef)
    (transport : Nat → Option String) (errAt : Nat → String)
    (hi : s.isInitialized = true) (hc : s.config = some cfg) (he : cfg.Enabled = true)
    (hf : ¬(goTrimSpace email.From = "" ∧ goTrimSpace cfg.From = "")) :
    ((∀ i, transport i = some (errAt i)) →
      ∃ r, send s email transport = some r ∧
        r.result = .error (.sendFailed (errAt cfg.SmtpRetryCount.toNat)) ∧
        r.attempts = cfg.SmtpRetryCount.toNat + 1 ∧
        r.sleeps = (if 0 < goDelayNs cfg.SmtpRetryDelaySec then
            List.replicate cfg.SmtpRetryCount.toNat (goDelayNs cfg.SmtpRetryDelaySec)
          else []) ∧
        r.finalService = s) ∧
    (∀ k, k ≤ cfg.SmtpRetryCount.toNat → (∀ i, i < k → (transport i).isSome = true) →
      transport k = none →
      ∃ r, send s email transport = some r ∧ r.result = .ok () ∧ r.attempts = k + 1) := by
  have hfrom : ¬((if goTrimSpace email.From = "" then goTrimSpace cfg.From
      else goTrimSpace email.From) = "") := by
    by_cases heF : goTrimSpace email.From = "" <;> simp [heF] <;> tauto
  constructor
  · intro hfail
    have hall := retryLoop_all_fail_zero transport (goDelayNs cfg.SmtpRetryDelaySec) errAt
      hfail cfg.SmtpRetryCount.toNat
    rcases hrl : retryLoop transport (goDelayNs cfg.SmtpRetryDelaySec) 0
        (cfg.SmtpRetryCount.toNat + 1) with ⟨le, n, sls, lgs⟩
    rw [hrl] at hall
    have hle : le = some (errAt cfg.SmtpRetryCount.toNat) := hall.1
    have hn : n = cfg.SmtpRetryCount.toNat + 1 := hall.2.1
    have hsls : sls = (if 0 < goDelayNs cfg.SmtpRetryDelaySec then
        List.replicate cfg.SmtpRetryCount.toNat (goDelayNs cfg.SmtpRetryDelaySec)
      else []) := hall.2.2
    subst hle hn hsls
    refine ⟨{ result := .error (.sendFailed (errAt cfg.SmtpRetryCount.toNat))
            , attempts := cfg.SmtpRetryCount.toNat + 1
            , sleeps := (if 0 < goDelayNs cfg.SmtpRetryDelaySec then
                List.replicate cfg.SmtpRetryCount.toNat (goDelayNs cfg.SmtpRetryDelaySec)
              else [])
            , logs := lgs
            , finalService := s }, ?_, rfl, rfl, rfl, rfl⟩
    simp [send, hi, hc, he, hfrom, hrl]
  · intro k hk hsome hnone
    have hrs := retryLoop_first_success transport (goDelayNs cfg.SmtpRetryDelaySec) k 0
      cfg.SmtpRetryCount.toNat (by simpa using hsome) (by simpa using hnone) hk
    rcases hrl : retryLoop transport (goDelayNs cfg.SmtpRetryDelaySec) 0
        (cfg.SmtpRetryCount.toNat + 1) with ⟨le, n, sls, lgs⟩
    rw [hrl] at hrs
    have hle : le = none := hrs.1
    have hn : n = k + 1 := hrs.2
    subst hle hn
    refine ⟨{ result := .ok (), attempts := k + 1, sleeps := sls, logs := lgs
            , finalService := s }, ?_, rfl, rfl⟩
    simp [send, hi, hc, he, hfrom, hrl]

/-- Witness for C4: retry count 2, zero delay; an always-failing transport
is invoked exactly three times and the last error is reported; a transport
succeeding on its third attempt stops the loop with success after three
calls. -/
theorem C4_witness :
    (∃ r, send { isInitialized := true
               , config := some { From := "cfg@x", Enabled := true, SmtpRetryCount := 2 } }
        {} (fun _ => some "boom") = some r ∧
      r.result = .error (.sendFailed "boom") ∧ r.attempts = 3 ∧
      r.sleeps = ([] : List Int) ∧
      r.finalService =
        { isInitialized := true
        , config := some { From := "cfg@x", Enabled := true, SmtpRetryCount := 2 } }) ∧
    (∃ r, send { isInitialized := true
               , config := some { From := "cfg@x", Enabled := true, SmtpRetryCount := 2 } }
        {} (fun i => if i < 2 then some "temporary" else none) = some r ∧
      r.result = .ok () ∧ r.attempts = 3) := by
  constructor
  · obtain ⟨r, h1, h2, h3, h4, h5⟩ :=
      (C4_retry_loop_behaviour
        { isInitialized := true
        , config := some { From := "cfg@x", Enabled := true, SmtpRetryCount := 2 } }
        { From := "cfg@x", Enabled := true, SmtpRetryCount := 2 }
        {} (fun _ => some "boom") (fun _ => "boom") rfl rfl rfl (by decide)).1 (fun i => rfl)
    exact ⟨r, h1, h2, h3, h4.trans (by decide), h5⟩
  · exact (C4_retry_loop_behaviour
      { isInitialized := true
      , config := some { From := "cfg@x", Enabled := true, SmtpRetryCount := 2 } }
      { From := "cfg@x", Enabled := true, SmtpRetryCount := 2 }
      {} (fun i => if i < 2 then some "temporary" else none)
      (fun _ => "") rfl rfl rfl (by decide)).2 2 (by decide)
      (by intro i hi
          rcases i with _ | _ | i
          · rfl
          · rfl
          · omega)
      rfl

/-! ## C8 -/

/-- C8 (confirmed): on an initialized service whose configuration is
disabled, `Send` makes zero transport calls, emits exactly the
warning-level disabled notification, returns nil, and leaves the service
untouched. -/
theorem C8_disabled_send_is_noop (s : ServiceState) (cfg : EmailConfig) (email : MsgDef)
    (transport : Nat → Option String)
    (hi : s.isInitialized = true) (hc : s.config = some cfg) (hd : cfg.Enabled = false) :
    send s email transport =
      some { result := .ok (), attempts := 0, sleeps := [], logs := [.warnDisabled],
             finalService := s } := by
  simp [send, hi, hc, hd]

/-- Witness for C8 at a concrete disabled configuration. -/
theorem C8_witness :
    send { isInitialized := true, config := some { Enabled := false } } {} (fun _ => none) =
      some { result := .ok (), attempts := 0, sleeps := [], logs := [.warnDisabled],
             finalService := { isInitialized := true, config := some { Enabled := false } } } :=
  C8_disabled_send_is_noop _ _ {} (fun _ => none) rfl rfl rfl

/-! ## C10 -/

/-- C10 (confirmed): whatever `Send` returns — success, a wrapped transport
failure, the not-initialized error or the empty-sender error — the service
state it hands back is exactly the state it was given: `Send` reads the
configuration and the initialization flag but never writes any of them. -/
theorem C10_send_preserves_state (s : ServiceState) (email : MsgDef)
    (transport : Nat → Option String) (r : SendResult)
    (h : send s email transport = some r) : r.finalService = s := by
  by_cases hi : s.isInitialized
  · rcases hcfg : s.config with _ | cfg
    · simp [send, hi, hcfg] at h
    · by_cases hen : cfg.Enabled
      · by_cases hfa : (if goTrimSpace email.From = "" then goTrimSpace cfg.From
            else goTrimSpace email.From) = ""
        · simp [send, hi, hcfg, hen, hfa] at h
          rw [← h]
        · rcases hrl : retryLoop transport (goDelayNs cfg.SmtpRetryDelaySec) 0
              (cfg.SmtpRetryCount.toNat + 1) with ⟨le, n, sls, lgs⟩
          simp [send, hi, hcfg, hen, hfa, hrl] at h
          rw [← h]
      · simp [send, hi, hcfg, hen] at h
        rw [← h]
  · simp [send, hi] at h
    rw [← h]

/-- Witness for C10 at a concrete uninitialized service. -/
theorem C10_witness :
    (SendResult.finalService
      { result := .error .notInitialized, attempts := 0, sleeps := [], logs := []
      , finalService := {} }) = ({} : ServiceState) :=
  C10_send_preserves_state {} {} (fun _ => none) _ rfl

/-! ## C6 -/

/-- C6 (counterexample): on a service whose logger was never injected, the
first `Initialize` call returns the missing-logger error, yet the second
call returns nil (success) while the service is still not initialized — a
subsequent caller does not observe the first call's failed outcome. -/
theorem C6_counterexample :
    (initializeService (.ok {}) { loggerPresent := false }).1 = .error .noLogger ∧
    (initializeService (.ok {})
        (initializeService (.ok {}) { loggerPresent := false }).2).1 = .ok () ∧
    (initializeService (.ok {})
        (initializeService (.ok {}) { loggerPresent := false }).2).2.isInitialized = false :=
  ⟨rfl, rfl, rfl⟩

/-- C6 (amended): `Initialize` runs its setup at most once — any call after
the one-shot has been consumed (or on an already-initialized service)
returns nil and leaves the state untouched.  A first call from a fresh
state consumes the one-shot and reports success exactly when it set the
initialized flag; but a failed first call's error is not re-reported: every
later call returns success even though the service never became
initialized, so the failure is observable only through the initialized flag
(and thus through `Send`), not through `Initialize`'s return value. -/
theorem C6_amended_once_guard (fetch fetch2 : Except String EmailConfig) (s : ServiceState) :
    (s.isInitialized = true → initializeService fetch s = (.ok (), s)) ∧
    (s.onceDone = true → initializeService fetch s = (.ok (), s)) ∧
    (s.isInitialized = false → s.onceDone = false →
      ((initializeService fetch s).2.onceDone = true ∧
       ((initializeService fetch s).1 = .ok () ↔
         (initializeService fetch s).2.isInitialized = true) ∧
       initializeService fetch2 (initializeService fetch s).2 =
         (.ok (), (initializeService fetch s).2))) := by
  refine ⟨?_, ?_, ?_⟩
  · intro h
    simp [initializeService, h]
  · intro h
    by_cases hi : s.isInitialized
    · simp [initializeService, hi]
    · simp [initializeService, hi, h]
  · intro h1 h2
    by_cases hl : s.loggerPresent
    · by_cases hcs : s.configServicePresent
      · rcases fetch with e | cfg
        · simp [initializeService, h1, h2, hl, hcs]
        · cases hv : validateConfig cfg with
          | error e => simp [initializeService, h1, h2, hl, hcs, hv]
          | ok u => simp [initializeService, h1, h2, hl, hcs, hv]
      · simp [initializeService, h1, h2, hl, hcs]
    · simp [initializeService, h1, h2, hl]

/-- Witness for the amended C6 theorem: a consumed one-shot makes the next
call a success-returning no-op. -/
theorem C6_amended_witness :
    initializeService (.ok {}) { loggerPresent := false, onceDone := true } =
      (.ok (), { loggerPresent := false, onceDone := true }) :=
  (C6_amended_once_guard (.ok {}) (.ok {})
    { loggerPresent := false, onceDone := true }).2.1 rfl

/-! ## C7 -/

/-- C7 (counterexample): with a blank explicit sender and an empty
configured default sender, the composer does not return an error — it
produces a document whose resolved `From` is the empty string. -/
theorem C7_counterexample :
    (buildEmailWithADIFAttachment { From := "" } { adifResult := .ok "A" } "" "" "hello"
        ["to@example.com"] [{ LogbookID := 1, SessionID := 1 }]).isOk = true ∧
    ((buildEmailWithADIFAttachment { From := "" } { adifResult := .ok "A" } "" "" "hello"
        ["to@example.com"] [{ LogbookID := 1, SessionID := 1 }]).toOption.map MsgDef.From) =
      some "" :=
  ⟨rfl, rfl⟩

/-- C7 (amended): the composer never validates the resolved sender for
emptiness: with a blank explicit sender and an empty configured default
(and otherwise satisfiable inputs) it succeeds and returns a document whose
`From` is empty; the emptiness error surfaces only later, in `Send`. -/
theorem C7_amended_empty_from_not_checked (cfg : EmailConfig) (env : BuildEnv)
    (fromAddr subject msg : String) (recipients : List String) (slice : List Qso)
    (a : String)
    (h0 : goTrimSpace fromAddr = "") (h1 : cfg.From = "")
    (h2 : recipients ≠ []) (h3 : slice ≠ []) (h4 : env.adifResult = .ok a) :
    ∃ d, buildEmailWithADIFAttachment cfg env fromAddr subject msg recipients slice = .ok d ∧
      d.From = "" := by
  have hrec : recipients.isEmpty = false := by
    simpa [List.isEmpty_iff] using h2
  have hsl : slice.isEmpty = false := by
    simpa [List.isEmpty_iff] using h3
  simp [buildEmailWithADIFAttachment, h0, h1, h4, hrec, hsl]

/-- Witness for the amended C7 theorem at concrete inputs. -/
theorem C7_amended_witness :
    ∃ d, buildEmailWithADIFAttachment { From := "" } { adifResult := .ok "A" } "" "s" "m"
        ["to@example.com"] [{ LogbookID := 1, SessionID := 1 }] = .ok d ∧ d.From = "" :=
  C7_amended_empty_from_not_checked { From := "" } { adifResult := .ok "A" } "" "s" "m"
    ["to@example.com"] [{ LogbookID := 1, SessionID := 1 }] "A" rfl rfl (by decide)
    (by decide) rfl

/-! ## C3 -/

/-- C3 (counterexample): two composer runs with identical resolved inputs
but two different legal Go map iteration orders — both permutations of the
header mapping's keys — emit the header lines in different sequences and so
produce different documents: header serialization is not stable and does
not follow the mapping's insertion order. -/
theorem C3_counterexample :
    (["To", "From", "Subject", "Date", "Message-Id", "Mime-Version",
        "Content-Type"] : List String).Perm
      ((buildHeaders "a@x" "t@y" "s" "" "" "B").map Prod.fst) ∧
    ((buildEmailWithADIFAttachment {}
        { boundary := "B"
        , hdrOrder := ["To", "From", "Subject", "Date", "Message-Id", "Mime-Version",
            "Content-Type"] }
        "a@x" "s" "m" ["t@y"] [{ LogbookID := 1, SessionID := 1 }]).toOption.map MsgDef.Msg ≠
      (buildEmailWithADIFAttachment {} { boundary := "B" }
        "a@x" "s" "m" ["t@y"] [{ LogbookID := 1, SessionID := 1 }]).toOption.map MsgDef.Msg) := by
  constructor
  · decide
  · decide

/-- The header mapping the composer builds for given inputs: the resolution
steps of `BuildEmailWithADIFAttachment` that feed the seven `Set` calls,
factored out so that properties of the serialization can be stated. -/
def resolvedHeaders (cfg : EmailConfig) (env : BuildEnv) (fromAddr subject : String)
    (recipients : List String) : List (String × String) :=
  let fromR := goTrimSpace fromAddr
  let fromR := if fromR = "" then cfg.From else fromR
  let tos := if recipients.isEmpty then splitAndTrim cfg.To else recipients
  let subjectR := if goTrimSpace subject = "" then cfg.Subject else goTrimSpace subject
  buildHeaders fromR (String.intercalate ", " tos) subjectR env.date env.mid env.boundary

/-- On satisfiable inputs the composer returns exactly the document built
from the resolved sender, recipients, headers and multipart body. -/
theorem build_success_form (cfg : EmailConfig) (env : BuildEnv)
    (fromAddr subject msg : String) (recipients : List String) (slice : List Qso) (a : String)
    (hre : (if recipients = [] then splitAndTrim cfg.To else recipients) ≠ [])
    (hsl : slice ≠ []) (ha : env.adifResult = .ok a) :
    buildEmailWithADIFAttachment cfg env fromAddr subject msg recipients slice =
      .ok { From := (if goTrimSpace fromAddr = "" then cfg.From else goTrimSpace fromAddr)
          , To := (if recipients.isEmpty then splitAndTrim cfg.To else recipients)
          , Msg := writeHeaderLines (resolvedHeaders cfg env fromAddr subject recipients)
              env.hdrOrder ++ "\r\n" ++
              multipartBody env.boundary (env.timestamp ++ "-export.adi")
                (env.qpEncode (if goTrimSpace msg = "" then cfg.Body else goTrimSpace msg))
                (env.b64Encode a) } := by
  simp [buildEmailWithADIFAttachment, resolvedHeaders, hre, hsl, ha]

/-- C3 (amended): whenever the composer succeeds, the produced document is
the header block — one `key: value` line terminated by CRLF per visited
key, emitted in the Go map iteration order — followed by a blank line and
the multipart body; and for every iteration order that is a permutation of
the mapping's keys (every legal Go map range), the emitted header lines
form the same multiset as under the insertion order: the set of lines is
stable, but their sequence follows the randomized iteration order rather
than the insertion order. -/
theorem C3_amended_header_serialization (cfg : EmailConfig) (env : BuildEnv)
    (fromAddr subject msg : String) (recipients : List String) (slice : List Qso)
    (d : MsgDef) (a : String)
    (h : buildEmailWithADIFAttachment cfg env fromAddr subject msg recipients slice = .ok d)
    (ha : env.adifResult = .ok a) :
    (d.Msg = writeHeaderLines (resolvedHeaders cfg env fromAddr subject recipients)
        env.hdrOrder ++ "\r\n" ++
        multipartBody env.boundary (env.timestamp ++ "-export.adi")
          (env.qpEncode (if goTrimSpace msg = "" then cfg.Body else goTrimSpace msg))
          (env.b64Encode a)) ∧
    ∀ order : List String,
      order.Perm ((resolvedHeaders cfg env fromAddr subject recipients).map Prod.fst) →
      (order.map (headerLine (resolvedHeaders cfg env fromAddr subject recipients))).Perm
        (((resolvedHeaders cfg env fromAddr subject recipients).map Prod.fst).map
          (headerLine (resolvedHeaders cfg env fromAddr subject recipients))) := by
  constructor
  · have hre : (if recipients = [] then splitAndTrim cfg.To else recipients) ≠ [] := by
      intro hcon
      simp [buildEmailWithADIFAttachment, hcon] at h
    have hsl : slice ≠ [] := by
      intro hcon
      simp [buildEmailWithADIFAttachment, hre, hcon] at h
    rw [build_success_form cfg env fromAddr subject msg recipients slice a hre hsl ha] at h
    have hd := Except.ok.inj h
    rw [← hd]
  · intro order hord
    exact hord.map _

/-- Witness for the amended C3 theorem at concrete inputs, with the default
(insertion-order) iteration order. -/
theorem C3_amended_witness :
    ∃ d, buildEmailWithADIFAttachment {} { boundary := "B" } "a@x" "s" "m" ["t@y"]
        [{ LogbookID := 1, SessionID := 1 }] = .ok d ∧
      d.Msg = writeHeaderLines (resolvedHeaders {} { boundary := "B" } "a@x" "s" ["t@y"])
          (BuildEnv.hdrOrder { boundary := "B" }) ++ "\r\n" ++
        multipartBody "B" "-export.adi" "m" "" := by
  refine ⟨_, rfl, ?_⟩
  exact (C3_amended_header_serialization {} { boundary := "B" } "a@x" "s" "m" ["t@y"]
    [{ LogbookID := 1, SessionID := 1 }] _ "" rfl rfl).1

/-! ## Index lemmas for the host-port round trip -/

/-- A character absent from a list is never found. -/
theorem firstIdx_none_of_any_eq_false (l : List Char) (c : Char)
    (h : l.any (· == c) = false) : firstIdx l c = none := by
  induction l with
  | nil => rfl
  | cons a rest ih =>
    simp only [List.any_cons, Bool.or_eq_false_iff] at h
    simp [firstIdx, h.1, ih h.2]

/-- Scanning past a prefix that does not contain the character shifts the
found index by the prefix length. -/
theorem firstIdx_append_of_any_eq_false (l1 l2 : List Char) (c : Char)
    (h : l1.any (· == c) = false) :
    firstIdx (l1 ++ l2) c = (firstIdx l2 c).map (l1.length + ·) := by
  induction l1 with
  | nil => rcases hx : firstIdx l2 c with _ | j <;> simp [hx]
  | cons a rest ih =>
    simp only [List.any_cons, Bool.or_eq_false_iff] at h
    rw [List.cons_append]
    rw [show firstIdx (a :: (rest ++ l2)) c = (firstIdx (rest ++ l2) c).map (· + 1) by
      simp [firstIdx, h.1]]
    rw [ih h.2]
    rcases hx : firstIdx l2 c with _ | j
    · simp [hx]
    · simp [hx]
      omega

/-- The first occurrence of `c` in `l1 ++ c :: l2` when `l1` avoids `c`. -/
theorem firstIdx_concat_unique (l1 l2 : List Char) (c : Char)
    (h1 : l1.any (· == c) = false) :
    firstIdx (l1 ++ c :: l2) c = some l1.length := by
  rw [firstIdx_append_of_any_eq_false _ _ _ h1]
  simp [firstIdx]

/-- The last occurrence of `c` in `l1 ++ c :: l2` when the suffix `l2`
avoids `c` (the prefix may contain it). -/
theorem lastIdx_concat_unique (l1 l2 : List Char) (c : Char)
    (h2 : l2.any (· == c) = false) :
    lastIdx (l1 ++ c :: l2) c = some l1.length := by
  unfold lastIdx
  have hrev : (l1 ++ c :: l2).reverse = l2.reverse ++ c :: l1.reverse := by
    simp
  rw [hrev, firstIdx_concat_unique _ _ _ (by simpa using h2)]
  have hlen : (l1 ++ c :: l2).length - 1 - l2.reverse.length = l1.length := by
    simp only [List.length_append, List.length_cons, List.length_reverse]
    omega
  simp [hlen]

/-- Round trip of Go `net.JoinHostPort` and `net.SplitHostPort`: for a host
free of square brackets (IPv6 literals included — their colons select the
bracketed form) and a non-empty port string free of colons and brackets,
splitting the joined address recovers exactly the host and the port. -/
theorem splitHostPort_joinHostPort (host port : String)
    (hhb1 : containsChar host '[' = false) (hhb2 : containsChar host ']' = false)
    (hpne : port.toList ≠ [])
    (hpc : containsChar port ':' = false)
    (hpb1 : containsChar port '[' = false) (hpb2 : containsChar port ']' = false) :
    splitHostPort (joinHostPort host port) = some (host, port) := by
  have hhb1' : host.toList.any (· == '[') = false := hhb1
  have hhb2' : host.toList.any (· == ']') = false := hhb2
  have hpc' : port.toList.any (· == ':') = false := hpc
  have hpb1' : port.toList.any (· == '[') = false := hpb1
  have hpb2' : port.toList.any (· == ']') = false := hpb2
  have hplpos : 0 < port.toList.length := List.length_pos.mpr hpne
  have hmb1 : ∀ x ∈ host.data, ¬ x = '[' := by simpa using hhb1'
  have hmb2 : ∀ x ∈ host.data, ¬ x = ']' := by simpa using hhb2'
  have hmpc : ∀ x ∈ port.data, ¬ x = ':' := by simpa using hpc'
  have hmpb1 : ∀ x ∈ port.data, ¬ x = '[' := by simpa using hpb1'
  have hmpb2 : ∀ x ∈ port.data, ¬ x = ']' := by simpa using hpb2'
  have hnmb1 : '[' ∉ host.data := fun hc => hmb1 _ hc rfl
  have hnmb2 : ']' ∉ host.data := fun hc => hmb2 _ hc rfl
  have hnmpc : ':' ∉ port.data := fun hc => hmpc _ hc rfl
  have hnmpb1 : '[' ∉ port.data := fun hc => hmpb1 _ hc rfl
  have hnmpb2 : ']' ∉ port.data := fun hc => hmpb2 _ hc rfl
  by_cases hcol : containsChar host ':'
  · have hcs : (joinHostPort host port).toList =
        ('[' :: host.toList) ++ (']' :: ':' :: port.toList) := by
      unfold joinHostPort
      rw [if_pos hcol]
      show ("[" ++ host ++ "]:" ++ port).data = _
      simp only [String.data_append]
      simp [String.toList]
    have hassoc : ('[' :: host.toList) ++ (']' :: ':' :: port.toList) =
        (('[' :: host.toList) ++ [']']) ++ ':' :: port.toList := by simp
    have hlast : lastIdx (('[' :: host.toList) ++ (']' :: ':' :: port.toList)) ':' =
        some (host.toList.length + 2) := by
      rw [hassoc, lastIdx_concat_unique _ _ _ hpc']
      simp
    have hfirst : firstIdx (('[' :: host.toList) ++ (']' :: ':' :: port.toList)) ']' =
        some (host.toList.length + 1) := by
      rw [firstIdx_concat_unique ('[' :: host.toList) (':' :: port.toList) ']'
        (by simp only [List.any_cons, Bool.or_eq_false_iff]; exact ⟨by decide, hhb2'⟩)]
      simp
    have hlen : (('[' :: host.toList) ++ (']' :: ':' :: port.toList)).length =
        host.toList.length + 3 + port.toList.length := by
      simp [List.length_append]
      omega
    have hdropE : ((('[' :: host.toList) ++ (']' :: ':' :: port.toList)).drop
        (host.toList.length + 2)) = ':' :: port.toList := by
      rw [hassoc]
      rw [show host.toList.length + 2 = (('[' :: host.toList) ++ [']']).length by simp]
      exact List.drop_left _ _
    have hdropI : ((('[' :: host.toList) ++ (']' :: ':' :: port.toList)).drop
        (host.toList.length + 2 + 1)) = port.toList := by
      rw [show ('[' :: host.toList) ++ (']' :: ':' :: port.toList) =
          (('[' :: host.toList) ++ [']', ':']) ++ port.toList by simp]
      rw [show host.toList.length + 2 + 1 = (('[' :: host.toList) ++ [']', ':']).length by
        simp]
      exact List.drop_left _ _
    have htake : ((('[' :: host.toList) ++ (']' :: ':' :: port.toList)).drop 1).take
        (host.toList.length + 1 - 1) = host.toList := by
      rw [List.cons_append, List.drop_one, List.tail_cons]
      rw [show host.toList.length + 1 - 1 = host.toList.length by omega]
      exact List.take_left _ _
    unfold splitHostPort
    rw [hcs]
    rw [hlast, hfirst]
    simp only [List.cons_append, List.head?_cons, Option.some.injEq, if_true, reduceIte,
      reduceCtorEq]
    rw [← List.cons_append]
    rw [if_neg (by rw [hlen]; omega)]
    rw [if_neg (by omega)]
    rw [if_neg (by
      rw [List.cons_append, List.drop_one, List.tail_cons]
      simp [List.any_append, List.any_cons]
      exact ⟨hnmb1, hnmpb1⟩)]
    rw [if_neg (by rw [hdropE]; simp [List.any_cons]; exact hnmpb2)]
    rw [htake, hdropI]
    rfl
  · have hcol' : host.toList.any (· == ':') = false := by
      have : containsChar host ':' = false := by
        revert hcol
        cases containsChar host ':' <;> simp
      exact this
    have hmcol : ∀ x ∈ host.data, ¬ x = ':' := by simpa using hcol'
    have hcs : (joinHostPort host port).toList =
        host.toList ++ ':' :: port.toList := by
      unfold joinHostPort
      rw [if_neg hcol]
      show (host ++ ":" ++ port).data = _
      simp only [String.data_append]
      simp [String.toList]
    have hlast : lastIdx (host.toList ++ ':' :: port.toList) ':' =
        some host.toList.length :=
      lastIdx_concat_unique _ _ _ hpc'
    have hhead : ¬ ((host.toList ++ ':' :: port.toList).head? = some '[') := by
      cases hl0 : host.toList with
      | nil => simp [hl0]
      | cons a t =>
        have hx := hhb1'
        rw [hl0] at hx
        simp only [List.any_cons, Bool.or_eq_false_iff] at hx
        simp only [hl0, List.cons_append, List.head?_cons, Option.some.injEq]
        intro hc
        rw [hc] at hx
        simp at hx
    have htake : (host.toList ++ ':' :: port.toList).take host.toList.length =
        host.toList := List.take_left _ _
    have hdrop : (host.toList ++ ':' :: port.toList).drop (host.toList.length + 1) =
        port.toList := by
      rw [show host.toList ++ ':' :: port.toList =
          (host.toList ++ [':']) ++ port.toList by simp]
      rw [show host.toList.length + 1 = (host.toList ++ [':']).length by simp]
      exact List.drop_left _ _
    unfold splitHostPort
    rw [hcs, hlast]
    simp only []
    rw [if_neg hhead]
    rw [htake]
    rw [if_neg (by simp; exact fun hc => hmcol _ hc rfl)]
    rw [if_neg (by simp [List.any_append, List.any_cons]; exact ⟨hnmb1, hnmpb1⟩)]
    rw [if_neg (by simp [List.any_append, List.any_cons]; exact ⟨hnmb2, hnmpb2⟩)]
    rw [hdrop]
    rfl

/-! ## C9 -/

/-- C9 (confirmed): `validateConfig` applies its checks in the stated order
and reports the first violated rule's message without aggregating.  Here
"host" is the whitespace-trimmed host the code validates.  Conjunct 1: every
configuration passing all checks — including any colon-containing IPv6
literal host, since a bracket-free host and a digit-string port always
survive the JoinHostPort/SplitHostPort round trip — validates successfully.
The remaining conjuncts: an empty host, a host containing a space, a port
outside [1,65535], an empty from address, and a username/password pair with
exactly one side set each fail with their specific message. -/
theorem C9_validateConfig_checks (cfg : EmailConfig) :
    (goTrimSpace cfg.Host ≠ "" →
     containsChar (goTrimSpace cfg.Host) ' ' = false →
     containsChar (goTrimSpace cfg.Host) '[' = false →
     containsChar (goTrimSpace cfg.Host) ']' = false →
     0 < cfg.Port → cfg.Port ≤ 65535 →
     (toString cfg.Port).toList ≠ [] →
     containsChar (toString cfg.Port) ':' = false →
     containsChar (toString cfg.Port) '[' = false →
     containsChar (toString cfg.Port) ']' = false →
     goTrimSpace cfg.From ≠ "" →
     (goTrimSpace cfg.Username = "" ↔ goTrimSpace cfg.Password = "") →
     validateConfig cfg = .ok ()) ∧
    (goTrimSpace cfg.Host = "" →
     validateConfig cfg = .error "email host cannot be empty") ∧
    (goTrimSpace cfg.Host ≠ "" → containsChar (goTrimSpace cfg.Host) ' ' = true →
     validateConfig cfg = .error "email host cannot contain spaces") ∧
    (goTrimSpace cfg.Host ≠ "" → containsChar (goTrimSpace cfg.Host) ' ' = false →
     (cfg.Port ≤ 0 ∨ 65535 < cfg.Port) →
     validateConfig cfg = .error "email port must be between 1 and 65535") ∧
    (goTrimSpace cfg.Host ≠ "" → containsChar (goTrimSpace cfg.Host) ' ' = false →
     ¬(cfg.Port ≤ 0 ∨ 65535 < cfg.Port) →
     (splitHostPort (joinHostPort (goTrimSpace cfg.Host) (toString cfg.Port))).isSome →
     goTrimSpace cfg.From = "" →
     validateConfig cfg = .error "email from address cannot be empty") ∧
    (goTrimSpace cfg.Host ≠ "" → containsChar (goTrimSpace cfg.Host) ' ' = false →
     ¬(cfg.Port ≤ 0 ∨ 65535 < cfg.Port) →
     (splitHostPort (joinHostPort (goTrimSpace cfg.Host) (toString cfg.Port))).isSome →
     goTrimSpace cfg.From ≠ "" →
     goTrimSpace cfg.Username = "" → goTrimSpace cfg.Password ≠ "" →
     validateConfig cfg = .error "email username must be set when password is provided") ∧
    (goTrimSpace cfg.Host ≠ "" → containsChar (goTrimSpace cfg.Host) ' ' = false →
     ¬(cfg.Port ≤ 0 ∨ 65535 < cfg.Port) →
     (splitHostPort (joinHostPort (goTrimSpace cfg.Host) (toString cfg.Port))).isSome →
     goTrimSpace cfg.From ≠ "" →
     goTrimSpace cfg.Password = "" → goTrimSpace cfg.Username ≠ "" →
     validateConfig cfg = .error "email password must be set when username is provided") := by
  refine ⟨?_, ?_, ?_, ?_, ?_, ?_, ?_⟩
  · intro hH hS hB1 hB2 hp1 hp2 hPne hPc hPb1 hPb2 hF hCred
    have hport : ¬(cfg.Port ≤ 0 ∨ 65535 < cfg.Port) := by omega
    have hsplit := splitHostPort_joinHostPort (goTrimSpace cfg.Host) (toString cfg.Port)
      hB1 hB2 hPne hPc hPb1 hPb2
    by_cases hu : goTrimSpace cfg.Username = ""
    · have hpw : goTrimSpace cfg.Password = "" := hCred.mp hu
      simp [validateConfig, hH, hS, hport, hsplit, hF, hu, hpw]
    · have hpw : ¬ goTrimSpace cfg.Password = "" := fun hp => hu (hCred.mpr hp)
      simp [validateConfig, hH, hS, hport, hsplit, hF, hu, hpw]
  · intro hH
    simp [validateConfig, hH]
  · intro hH hS
    simp [validateConfig, hH, hS]
  · intro hH hS hp
    simp [validateConfig, hH, hS, hp]
  · intro hH hS hp hsp hF
    obtain ⟨pr, hpr⟩ := Option.isSome_iff_exists.mp hsp
    simp [validateConfig, hH, hS, hp, hpr, hF]
  · intro hH hS hp hsp hF hu hpw
    obtain ⟨pr, hpr⟩ := Option.isSome_iff_exists.mp hsp
    simp [validateConfig, hH, hS, hp, hpr, hF, hu, hpw]
  · intro hH hS hp hsp hF hpw hu
    obtain ⟨pr, hpr⟩ := Option.isSome_iff_exists.mp hsp
    simp [validateConfig, hH, hS, hp, hpr, hF, hu, hpw]

/-- Witness for C9 at concrete configurations: a bracket-literal IPv6 host
passes, and each of the violations produces its specific message. -/
theorem C9_witness :
    validateConfig { Host := "2001:db8::1", Port := 587, From := "from@example.com" } =
      .ok () ∧
    validateConfig { Host := "", Port := 587, From := "f@x" } =
      .error "email host cannot be empty" ∧
    validateConfig { Host := "smtp example.com", Port := 587, From := "f@x" } =
      .error "email host cannot contain spaces" ∧
    validateConfig { Host := "mail", Port := 0, From := "f@x" } =
      .error "email port must be between 1 and 65535" ∧
    validateConfig { Host := "mail", Port := 587, From := "" } =
      .error "email from address cannot be empty" ∧
    validateConfig { Host := "mail", Port := 587, From := "f@x", Password := "pw" } =
      .error "email username must be set when password is provided" ∧
    validateConfig { Host := "mail", Port := 587, From := "f@x", Username := "u" } =
      .error "email password must be set when username is provided" := by
  refine ⟨?_, ?_, ?_, ?_, ?_, ?_, ?_⟩
  · exact (C9_validateConfig_checks
      { Host := "2001:db8::1", Port := 587, From := "from@example.com" }).1 (by decide)
      (by decide) (by decide) (by decide) (by decide) (by decide) (by decide) (by decide)
      (by decide) (by decide) (by decide) (by decide)
  · exact (C9_validateConfig_checks { Host := "", Port := 587, From := "f@x" }).2.1
      (by decide)
  · exact (C9_validateConfig_checks
      { Host := "smtp example.com", Port := 587, From := "f@x" }).2.2.1 (by decide)
      (by decide)
  · exact (C9_validateConfig_checks { Host := "mail", Port := 0, From := "f@x" }).2.2.2.1
      (by decide) (by decide) (by decide)
  · exact (C9_validateConfig_checks { Host := "mail", Port := 587, From := "" }).2.2.2.2.1
      (by decide) (by decide) (by decide) (by decide) (by decide)
  · exact (C9_validateConfig_checks
      { Host := "mail", Port := 587, From := "f@x", Password := "pw" }).2.2.2.2.2.1
      (by decide) (by decide) (by decide) (by decide) (by decide) (by decide) (by decide)
  · exact (C9_validateConfig_checks
      { Host := "mail", Port := 587, From := "f@x", Username := "u" }).2.2.2.2.2.2
      (by decide) (by decide) (by decide) (by decide) (by decide) (by decide) (by decide)

end Email
